import Mathlib

/-!
Shallow embedding of the whisper.cpp realtime WebSocket streaming server
(`examples/server/realtime-stream.cpp` and the server translation unit).

The session core (`RealtimeStreamContext`) is modelled as a pure state
machine: C++ member functions become functions from a `StreamState` to a
`StreamState`, the external recognizer (`whisper_full` and the segment
accessors) becomes an explicit `EngineResult` oracle argument, and the
monotonic clock becomes an explicit `now : Int` (milliseconds) argument.
`std::string` values are modelled as lists of characters (`Str`), and the
audio sample type is kept abstract (`α`): every operation the code performs
on samples is pure data movement, so no arithmetic on samples is needed.

The field `engineCalls` is specification-only instrumentation: it records,
in order, every audio window actually handed to `whisper_full` (the code
guards that call behind `if (audio_data.empty()) return "";`).  No code
path reads it.
-/

set_option autoImplicit false

namespace WhisperRT

/-- Strings of the C++ code (`std::string`) are modelled as lists of characters. -/
abbrev Str : Type := List Char

/-- The whitespace set used by the code's `trim` lambda: `" \t\n\r"`. -/
def isWsChar (c : Char) : Bool :=
  c = ' ' || c = '\t' || c = '\n' || c = '\r'

/-- `s.erase(0, s.find_first_not_of(" \t\n\r"))`: drop leading whitespace. -/
def trimLeft (s : Str) : Str := s.dropWhile isWsChar

/-- `s.erase(s.find_last_not_of(" \t\n\r") + 1)`: drop trailing whitespace. -/
def trimRight (s : Str) : Str := (s.reverse.dropWhile isWsChar).reverse

/-- The `trim` lambda of `extractNewText`: left erase, then right erase. -/
def trim (s : Str) : Str := trimRight (trimLeft s)

/-- The `removeTimestamps` lambda of `extractNewText`, character by character:
a state bit `in_timestamp` is set on `[` (the bracket itself is not emitted),
cleared on a `]` seen while set (that bracket is skipped via `continue`), and
characters are emitted only while the bit is clear. -/
def removeTimestampsGo : Bool → Str → Str
  | _, [] => []
  | inTs, c :: rest =>
    if c = '[' then removeTimestampsGo true rest
    else if c = ']' ∧ inTs = true then removeTimestampsGo false rest
    else if inTs = true then removeTimestampsGo true rest
    else c :: removeTimestampsGo false rest

/-- `removeTimestamps(text)` of the code: strip every `[...]` span. -/
def removeTimestamps (text : Str) : Str := removeTimestampsGo false text

/-- One recognizer segment, as read back through `whisper_full_get_segment_text`,
`whisper_full_get_segment_t0/t1`, `whisper_full_get_segment_speaker_turn_next`
and the per-segment token ids. -/
structure Segment where
  text : Str
  t0 : Nat
  t1 : Nat
  speakerTurnNext : Bool
  tokens : List Int
  deriving DecidableEq

/-- Outcome of one `whisper_full` call: non-zero return (`failure`) or the
segment list read back from the context. -/
inductive EngineResult where
  | failure : EngineResult
  | success : List Segment → EngineResult
  deriving DecidableEq

/-- The parameters of `RealtimeStreamContext` that the modelled code paths
read: `step_ms` and the derived sample counts `n_samples_step_`,
`n_samples_len_`, `n_samples_keep_` (nonnegative for all meaningful
millisecond settings, hence `Nat`), plus the inference flags. -/
structure RtParams where
  stepMs : Int
  nStep : Nat
  nLen : Nat
  nKeep : Nat
  noContext : Bool
  noTimestamps : Bool
  tinydiarize : Bool
  deriving DecidableEq

/-- The mutable state of one `RealtimeStreamContext`:
`audio_buffer_` (`buffer`), `pcmf32_old_` (`tail`), `prompt_tokens_`,
`last_transcription_`, `n_iter_`, `last_process_time_`, plus the
specification-only `engineCalls` log. -/
structure StreamState (α : Type) where
  buffer : List α
  tail : List α
  promptTokens : List Int
  lastTranscription : Str
  nIter : Nat
  lastProcessTime : Int
  engineCalls : List (List α)
  deriving DecidableEq

variable {α : Type}

/-- Fresh session state, as produced by the constructor at clock value `t0`. -/
def initState (t0 : Int) : StreamState α :=
  { buffer := [], tail := [], promptTokens := [], lastTranscription := [],
    nIter := 0, lastProcessTime := t0, engineCalls := [] }

/-- The `while (audio_buffer_.size() > max_buffer_size) pop_front()` loop of
`addPCMAudio`. -/
def trimFront (nMax : Nat) : List α → List α
  | [] => []
  | x :: xs => if nMax < (x :: xs).length then trimFront nMax xs else x :: xs

/-- `addPCMAudio(const float*, size_t)`: append the samples, then pop from the
front while the buffer exceeds `n_samples_len_ * 2`. -/
def addPCMAudio (p : RtParams) (s : StreamState α) (samples : List α) : StreamState α :=
  { s with buffer := trimFront (p.nLen * 2) (s.buffer ++ samples) }

/-- `shouldProcess()`: false when fewer than `n_samples_step_` samples are
buffered, otherwise the millisecond gap since `last_process_time_` must reach
`step_ms`. -/
def shouldProcess (p : RtParams) (s : StreamState α) (now : Int) : Bool :=
  if s.buffer.length < p.nStep then false
  else decide (p.stepMs ≤ now - s.lastProcessTime)

/-- Zero-padded decimal rendering, width `w`. -/
def padNum (w n : Nat) : Str :=
  let ds := Nat.toDigits 10 n
  List.replicate (w - ds.length) '0' ++ ds

/-- Modelled from the spec: transcripts prefix each segment with a rendered
`[t0 --> t1]  ` stamp (spec section 4.1, step 7).  The renderer itself,
`to_timestamp` of common-whisper.cpp, is not among the provided sources; we
render centiseconds in the customary whisper shape `HH:MM:SS.mmm`.  No claim
depends on the exact digits, only on the transcript being some string. -/
def to_timestamp (t : Nat) : Str :=
  let msec := t * 10
  let hr := msec / 3600000
  let r1 := msec % 3600000
  let mn := r1 / 60000
  let r2 := r1 % 60000
  let sec := r2 / 1000
  let ms := r2 % 1000
  padNum 2 hr ++ (":").data ++ padNum 2 mn ++ (":").data ++ padNum 2 sec
    ++ (".").data ++ padNum 3 ms

/-- The per-segment piece of the transcript built in `runInference`: optional
timestamp prefix, the segment text, optional ` [SPEAKER_TURN]` marker. -/
def formatSegment (p : RtParams) (seg : Segment) : Str :=
  (if p.noTimestamps = false then
      ("[").data ++ to_timestamp seg.t0 ++ (" --> ").data ++ to_timestamp seg.t1
        ++ ("]  ").data
    else [])
  ++ seg.text
  ++ (if p.tinydiarize = true ∧ seg.speakerTurnNext = true then (" [SPEAKER_TURN]").data
      else [])

/-- The `result` accumulation loop of `runInference` over all segments. -/
def formatTranscript (p : RtParams) (segs : List Segment) : Str :=
  segs.foldl (fun acc seg => acc ++ formatSegment p seg) []

/-- `runInference(audio_data)`: empty input returns immediately; otherwise
`whisper_full` is invoked (recorded in `engineCalls`), a non-zero return
yields the empty string, and on success the transcript is formatted,
`n_iter_` is bumped, and — only when context is enabled and at least one
segment came back — `prompt_tokens_` is replaced by the concatenated token
ids of all segments in order. -/
def runInference (p : RtParams) (res : EngineResult) (aud : List α)
    (s : StreamState α) : Str × StreamState α :=
  if aud.isEmpty then ([], s)
  else
    let s1 : StreamState α := { s with engineCalls := s.engineCalls ++ [aud] }
    match res with
    | EngineResult.failure => ([], s1)
    | EngineResult.success segs =>
        let result := formatTranscript p segs
        let s2 : StreamState α := { s1 with nIter := s1.nIter + 1 }
        let s3 : StreamState α :=
          if p.noContext = false ∧ segs ≠ [] then
            { s2 with promptTokens := (segs.map Segment.tokens).flatten }
          else s2
        (result, s3)

/-- `extractNewText(full_text)`: empty input returns at once (leaving
`last_transcription_` alone); otherwise both the input and the stored last
transcription are bracket-stripped and trimmed, the new text is the trimmed
suffix when the current strictly prefix-extends the last, the whole current
when they diverge, and empty when equal; `last_transcription_` is then set to
the raw input. -/
def extractNewText (full : Str) (s : StreamState α) : Str × StreamState α :=
  if full.isEmpty then ([], s)
  else
    let cc := trim (removeTimestamps full)
    let lc := trim (removeTimestamps s.lastTranscription)
    let newText : Str :=
      if lc.length < cc.length ∧ cc.take lc.length = lc then trim (cc.drop lc.length)
      else if cc ≠ lc then cc
      else []
    (if newText.isEmpty then [] else newText, { s with lastTranscription := full })

/-- The window-assembly block shared verbatim by `processIfReady` and
`flush`: `n_take = min(len tail, max(0, n_keep + n_len - n_new))` overlap
samples copied from the end of the tail (the `for` loop over
`pcmf32_old_[pcmf32_old_.size() - n_samples_take + i]`), followed by the
first `n_new` buffered samples (the `std::copy`).  Nat subtraction supplies
the `max(0, ...)`. -/
def assembleWindow (nKeep nLen nNew : Nat) (tl buf : List α) : List α :=
  tl.drop (tl.length - min tl.length (nKeep + nLen - nNew)) ++ buf.take nNew

/-- `processIfReady()`: nothing happens unless `shouldProcess` holds; when it
does, `n_new = min(len buffer, n_step)` fresh samples and the retained
overlap are assembled into the window, the tail becomes that window, the
consumed samples leave the buffer, the clock is stamped, and the inference
result is diffed incrementally. -/
def processIfReady (p : RtParams) (res : EngineResult) (now : Int)
    (s : StreamState α) : Str × StreamState α :=
  if shouldProcess p s now = false then ([], s)
  else
    let nNew := min s.buffer.length p.nStep
    let window := assembleWindow p.nKeep p.nLen nNew s.tail s.buffer
    let s1 : StreamState α :=
      { s with tail := window, buffer := s.buffer.drop nNew, lastProcessTime := now }
    let out := runInference p res window s1
    extractNewText out.1 out.2

/-- `flush()`: empty buffer returns at once with no work; otherwise the whole
buffer (`n_new = len buffer`, so the `take` below is the identity) plus the
usual overlap is submitted, buffer and tail are cleared, the clock is
stamped, and the result is diffed incrementally. -/
def flush (p : RtParams) (res : EngineResult) (now : Int)
    (s : StreamState α) : Str × StreamState α :=
  if s.buffer.isEmpty then ([], s)
  else
    let window := assembleWindow p.nKeep p.nLen s.buffer.length s.tail s.buffer
    let s1 : StreamState α :=
      { s with buffer := [], tail := [], lastProcessTime := now }
    let out := runInference p res window s1
    extractNewText out.1 out.2

/-- `reset()`: clear buffer, tail, prompt tokens and last transcription, zero
the iteration counter, stamp the clock.  The specification-only call log is
untouched. -/
def resetState (s : StreamState α) (now : Int) : StreamState α :=
  { s with buffer := [], tail := [], promptTokens := [], lastTranscription := [],
           nIter := 0, lastProcessTime := now }

/-- States of one session reachable from a fresh context through the public
operations `addPCMAudio`, `processIfReady`, `flush`, `reset`, with arbitrary
engine outcomes and clock readings. -/
inductive Reachable (p : RtParams) : StreamState α → Prop where
  | init (t0 : Int) : Reachable p (initState t0)
  | push {s : StreamState α} (chunk : List α) :
      Reachable p s → Reachable p (addPCMAudio p s chunk)
  | drain {s : StreamState α} (res : EngineResult) (now : Int) :
      Reachable p s → Reachable p (processIfReady p res now s).2
  | flushStep {s : StreamState α} (res : EngineResult) (now : Int) :
      Reachable p s → Reachable p (flush p res now s).2
  | resetStep {s : StreamState α} (now : Int) :
      Reachable p s → Reachable p (resetState s now)

/-- Classification of an inbound TEXT frame as the server's `.message`
handler experiences it: `json::parse` threw (`parseFail`), the parsed object
had a `type` field that threw on conversion to `std::string` (`typeFail`,
also landing in the same catch block), the object had no `type` field
(`noType`), or a string-typed `type` was read (`typed`). -/
inductive TextMsg where
  | parseFail : Str → TextMsg
  | typeFail : Str → TextMsg
  | noType : TextMsg
  | typed : Str → TextMsg
  deriving DecidableEq

/-- Outbound JSON frames the TEXT branch can send, by their `type` tag. -/
inductive Response where
  | configUpdated : Response
  | flushComplete : Str → Response
  | resetAck : Response
  | errorMsg : Str → Response
  deriving DecidableEq

/-- The TEXT-opcode branch of the `.message` handler in the server
translation unit: `config` is acknowledged, `flush` calls the session flush
and reports its text, `reset` resets and acknowledges, a caught exception
emits one `error` frame prefixed `Invalid JSON: `, and anything else —
including a parsed object with no `type` or an unrecognized `type` — sends
nothing.  The trailing boolean records whether the handler closed the
connection; no branch ever does. -/
def handleTextFrame (p : RtParams) (res : EngineResult) (now : Int)
    (s : StreamState α) (m : TextMsg) : List Response × StreamState α × Bool :=
  match m with
  | TextMsg.parseFail what =>
      ([Response.errorMsg (("Invalid JSON: ").data ++ what)], s, false)
  | TextMsg.typeFail what =>
      ([Response.errorMsg (("Invalid JSON: ").data ++ what)], s, false)
  | TextMsg.noType => ([], s, false)
  | TextMsg.typed t =>
      if t = ("config").data then ([Response.configUpdated], s, false)
      else if t = ("flush").data then
        let out := flush p res now s
        ([Response.flushComplete out.1], out.2, false)
      else if t = ("reset").data then ([Response.resetAck], resetState s now, false)
      else ([], s, false)

/-- The honest proper-extension relation used by the specification: `cur`
strictly extends `base`, i.e. some nonempty string appended to `base` gives
`cur`. -/
def properPre (base cur : Str) : Prop := ∃ t, t ≠ [] ∧ base ++ t = cur

/-- The specification's proper-extension relation coincides with the pair of
checks the code performs (`size() >` and `substr(0, n) ==`). -/
theorem properPre_iff (b c : Str) :
    properPre b c ↔ b.length < c.length ∧ c.take b.length = b := by
  constructor
  · rintro ⟨t, ht, rfl⟩
    have ht0 : 0 < t.length := List.length_pos.mpr ht
    refine ⟨by simp; omega, ?_⟩
    exact List.take_left b t
  · rintro ⟨hlen, htake⟩
    refine ⟨c.drop b.length, ?_, ?_⟩
    · intro hd
      have := congrArg List.length hd
      simp at this
      omega
    · have hsplit : c.take b.length ++ c.drop b.length = c := List.take_append_drop _ c
      rw [htake] at hsplit
      exact hsplit

instance properPre.instDec (b c : Str) : Decidable (properPre b c) :=
  decidable_of_iff _ (properPre_iff b c).symm

theorem ite_isEmpty_self (l : Str) : (if l.isEmpty = true then ([] : Str) else l) = l := by
  cases l <;> simp

/-- The buffer-capping loop of `addPCMAudio` drops exactly the front overflow. -/
theorem trimFront_eq_drop (nMax : Nat) (l : List α) :
    trimFront nMax l = l.drop (l.length - nMax) := by
  induction l with
  | nil => simp [trimFront]
  | cons x xs ih =>
    by_cases h : nMax < (x :: xs).length
    · rw [trimFront, if_pos h, ih]
      simp only [List.length_cons] at h ⊢
      have hx : xs.length + 1 - nMax = (xs.length - nMax) + 1 := by omega
      rw [hx, List.drop_succ_cons]
    · rw [trimFront, if_neg h]
      simp only [List.length_cons, not_lt] at h
      have hz : (x :: xs).length - nMax = 0 := by simp; omega
      rw [hz, List.drop_zero]

theorem trimFront_length (nMax : Nat) (l : List α) :
    (trimFront nMax l).length = min l.length nMax := by
  rw [trimFront_eq_drop, List.length_drop]
  omega

theorem runInference_snd_buffer (p : RtParams) (res : EngineResult) (aud : List α)
    (s : StreamState α) : ((runInference p res aud s).2).buffer = s.buffer := by
  by_cases he : aud.isEmpty
  · simp [runInference, he]
  · rcases res with _ | segs <;>
      simp only [runInference, he, if_false, Bool.false_eq_true]
    all_goals (try (split <;> rfl))

theorem runInference_snd_tail (p : RtParams) (res : EngineResult) (aud : List α)
    (s : StreamState α) : ((runInference p res aud s).2).tail = s.tail := by
  by_cases he : aud.isEmpty
  · simp [runInference, he]
  · rcases res with _ | segs <;>
      simp only [runInference, he, if_false, Bool.false_eq_true]
    all_goals (try (split <;> rfl))

theorem runInference_snd_lastProcessTime (p : RtParams) (res : EngineResult) (aud : List α)
    (s : StreamState α) :
    ((runInference p res aud s).2).lastProcessTime = s.lastProcessTime := by
  by_cases he : aud.isEmpty
  · simp [runInference, he]
  · rcases res with _ | segs <;>
      simp only [runInference, he, if_false, Bool.false_eq_true]
    all_goals (try (split <;> rfl))

theorem runInference_snd_lastTranscription (p : RtParams) (res : EngineResult) (aud : List α)
    (s : StreamState α) :
    ((runInference p res aud s).2).lastTranscription = s.lastTranscription := by
  by_cases he : aud.isEmpty
  · simp [runInference, he]
  · rcases res with _ | segs <;>
      simp only [runInference, he, if_false, Bool.false_eq_true]
    all_goals (try (split <;> rfl))

theorem runInference_snd_engineCalls (p : RtParams) (res : EngineResult) (aud : List α)
    (s : StreamState α) :
    ((runInference p res aud s).2).engineCalls
      = s.engineCalls ++ (if aud.isEmpty = true then [] else [aud]) := by
  by_cases he : aud.isEmpty
  · simp [runInference, he]
  · rcases res with _ | segs <;>
      simp only [runInference, he, if_false, Bool.false_eq_true]
    all_goals (try (split <;> rfl))

theorem extractNewText_snd (full : Str) (s : StreamState α) :
    (extractNewText full s).2
      = if full.isEmpty = true then s else { s with lastTranscription := full } := by
  unfold extractNewText
  split <;> rfl

theorem extractNewText_snd_buffer (full : Str) (s : StreamState α) :
    ((extractNewText full s).2).buffer = s.buffer := by
  rw [extractNewText_snd]
  split <;> rfl

theorem extractNewText_snd_tail (full : Str) (s : StreamState α) :
    ((extractNewText full s).2).tail = s.tail := by
  rw [extractNewText_snd]
  split <;> rfl

theorem extractNewText_snd_promptTokens (full : Str) (s : StreamState α) :
    ((extractNewText full s).2).promptTokens = s.promptTokens := by
  rw [extractNewText_snd]
  split <;> rfl

theorem extractNewText_snd_lastProcessTime (full : Str) (s : StreamState α) :
    ((extractNewText full s).2).lastProcessTime = s.lastProcessTime := by
  rw [extractNewText_snd]
  split <;> rfl

theorem extractNewText_snd_engineCalls (full : Str) (s : StreamState α) :
    ((extractNewText full s).2).engineCalls = s.engineCalls := by
  rw [extractNewText_snd]
  split <;> rfl

theorem extractNewText_empty (s : StreamState α) : extractNewText [] s = ([], s) := rfl

/-- The readiness predicate spelled out: enough buffered samples and enough
elapsed milliseconds. -/
theorem shouldProcess_eq_true_iff (p : RtParams) (s : StreamState α) (now : Int) :
    shouldProcess p s now = true ↔
      p.nStep ≤ s.buffer.length ∧ p.stepMs ≤ now - s.lastProcessTime := by
  constructor
  · intro ht
    unfold shouldProcess at ht
    by_cases hb : s.buffer.length < p.nStep
    · rw [if_pos hb] at ht
      simp at ht
    · rw [if_neg hb] at ht
      exact ⟨by omega, of_decide_eq_true ht⟩
  · rintro ⟨h1, h2⟩
    unfold shouldProcess
    rw [if_neg (by omega)]
    exact decide_eq_true h2

theorem drain_not_ready (p : RtParams) (res : EngineResult) (now : Int)
    (s : StreamState α) (h : shouldProcess p s now = false) :
    processIfReady p res now s = ([], s) := by
  unfold processIfReady
  rw [if_pos h]

/-- Field-level description of a ready `processIfReady` call. -/
theorem drain_ready_fields (p : RtParams) (res : EngineResult) (now : Int)
    (s : StreamState α) (h : shouldProcess p s now = true) :
    (processIfReady p res now s).2.buffer
        = s.buffer.drop (min s.buffer.length p.nStep) ∧
    (processIfReady p res now s).2.tail
        = assembleWindow p.nKeep p.nLen (min s.buffer.length p.nStep) s.tail s.buffer ∧
    (processIfReady p res now s).2.lastProcessTime = now ∧
    (processIfReady p res now s).2.engineCalls
        = s.engineCalls ++
          (if (assembleWindow p.nKeep p.nLen (min s.buffer.length p.nStep)
                s.tail s.buffer).isEmpty = true then []
           else [assembleWindow p.nKeep p.nLen (min s.buffer.length p.nStep)
                s.tail s.buffer]) := by
  have hc : ¬(shouldProcess p s now = false) := by simp [h]
  unfold processIfReady
  rw [if_neg hc]
  dsimp only
  refine ⟨?_, ?_, ?_, ?_⟩
  · rw [extractNewText_snd_buffer, runInference_snd_buffer]
  · rw [extractNewText_snd_tail, runInference_snd_tail]
  · rw [extractNewText_snd_lastProcessTime, runInference_snd_lastProcessTime]
  · rw [extractNewText_snd_engineCalls, runInference_snd_engineCalls]

theorem flush_empty_eq (p : RtParams) (res : EngineResult) (now : Int)
    (s : StreamState α) (h : s.buffer = []) : flush p res now s = ([], s) := by
  unfold flush
  rw [if_pos (by simp [h])]

/-- A nonempty buffer makes the flush window nonempty. -/
theorem assembleWindow_ne_nil (nKeep nLen : Nat) (tl buf : List α) (h : buf ≠ []) :
    assembleWindow nKeep nLen buf.length tl buf ≠ [] := by
  unfold assembleWindow
  rw [List.take_length]
  simp [h]

/-- Field-level description of a nonempty-buffer `flush` call. -/
theorem flush_fields (p : RtParams) (res : EngineResult) (now : Int)
    (s : StreamState α) (h : s.buffer ≠ []) :
    (flush p res now s).2.buffer = [] ∧
    (flush p res now s).2.tail = [] ∧
    (flush p res now s).2.lastProcessTime = now ∧
    (flush p res now s).2.engineCalls
        = s.engineCalls ++
          [assembleWindow p.nKeep p.nLen s.buffer.length s.tail s.buffer] := by
  have hne : ¬(s.buffer.isEmpty = true) := by simp [h]
  have hwin : (assembleWindow p.nKeep p.nLen s.buffer.length s.tail s.buffer).isEmpty
      = false := by
    have := assembleWindow_ne_nil p.nKeep p.nLen s.tail s.buffer h
    simpa [List.isEmpty_iff] using this
  unfold flush
  rw [if_neg hne]
  dsimp only
  refine ⟨?_, ?_, ?_, ?_⟩
  · rw [extractNewText_snd_buffer, runInference_snd_buffer]
  · rw [extractNewText_snd_tail, runInference_snd_tail]
  · rw [extractNewText_snd_lastProcessTime, runInference_snd_lastProcessTime]
  · rw [extractNewText_snd_engineCalls, runInference_snd_engineCalls, hwin]
    rfl

theorem assembleWindow_take_ne_nil (nKeep nLen nNew : Nat) (tl buf : List α)
    (hn : 0 < nNew) (hb : nNew ≤ buf.length) :
    assembleWindow nKeep nLen nNew tl buf ≠ [] := by
  unfold assembleWindow
  intro hc
  rcases List.append_eq_nil.mp hc with ⟨-, htk⟩
  cases buf with
  | nil =>
    simp at hb
    omega
  | cons b bs =>
    cases nNew with
    | zero => omega
    | succ k => simp at htk

/-- C1: a ready `processIfReady` call — the readiness predicate spelled out,
with the derived `N_STEP` positive as it is for every meaningful `step_ms` —
removes exactly `n_new = min(len buffer, N_STEP)` samples from the front of
the buffer, submits to the engine the window made of the last
`n_take = min(len tail, max(0, N_KEEP + N_LEN - n_new))` tail samples
followed by the first `n_new` buffered samples, and sets the tail to that
submitted window. -/
theorem drain_ready_window_spec (p : RtParams) (res : EngineResult) (now : Int)
    (s : StreamState α) (hbuf : p.nStep ≤ s.buffer.length)
    (htime : p.stepMs ≤ now - s.lastProcessTime) (hstep : 0 < p.nStep) :
    (processIfReady p res now s).2.buffer
        = s.buffer.drop (min s.buffer.length p.nStep) ∧
    (processIfReady p res now s).2.tail
        = assembleWindow p.nKeep p.nLen (min s.buffer.length p.nStep) s.tail s.buffer ∧
    (processIfReady p res now s).2.engineCalls
        = s.engineCalls
          ++ [assembleWindow p.nKeep p.nLen (min s.buffer.length p.nStep)
                s.tail s.buffer] := by
  have h : shouldProcess p s now = true :=
    (shouldProcess_eq_true_iff p s now).mpr ⟨hbuf, htime⟩
  obtain ⟨h1, h2, -, h4⟩ := drain_ready_fields p res now s h
  have hne : assembleWindow p.nKeep p.nLen (min s.buffer.length p.nStep)
      s.tail s.buffer ≠ [] :=
    assembleWindow_take_ne_nil p.nKeep p.nLen _ s.tail s.buffer (by omega) (by omega)
  have hw : (assembleWindow p.nKeep p.nLen (min s.buffer.length p.nStep)
      s.tail s.buffer).isEmpty = false := by
    simpa [List.isEmpty_iff] using hne
  rw [hw] at h4
  simp only [Bool.false_eq_true, if_false] at h4
  exact ⟨h1, h2, h4⟩

theorem drain_ready_window_spec_witness :
    ((⟨0, 2, 3, 1, true, false, false⟩ : RtParams).nStep
        ≤ (⟨[10, 20, 30], [1, 2, 3, 4], [], [], 0, 0, []⟩ : StreamState Int).buffer.length) ∧
    ((⟨0, 2, 3, 1, true, false, false⟩ : RtParams).stepMs
        ≤ 5 - (⟨[10, 20, 30], [1, 2, 3, 4], [], [], 0, 0, []⟩
            : StreamState Int).lastProcessTime) ∧
    (0 < (⟨0, 2, 3, 1, true, false, false⟩ : RtParams).nStep) ∧
    (processIfReady (⟨0, 2, 3, 1, true, false, false⟩ : RtParams) EngineResult.failure 5
        (⟨[10, 20, 30], [1, 2, 3, 4], [], [], 0, 0, []⟩ : StreamState Int)).2.buffer
      = [30] ∧
    (processIfReady (⟨0, 2, 3, 1, true, false, false⟩ : RtParams) EngineResult.failure 5
        (⟨[10, 20, 30], [1, 2, 3, 4], [], [], 0, 0, []⟩ : StreamState Int)).2.tail
      = [3, 4, 10, 20] ∧
    (processIfReady (⟨0, 2, 3, 1, true, false, false⟩ : RtParams) EngineResult.failure 5
        (⟨[10, 20, 30], [1, 2, 3, 4], [], [], 0, 0, []⟩ : StreamState Int)).2.engineCalls
      = [[3, 4, 10, 20]] := by
  obtain ⟨h1, h2, h3⟩ := drain_ready_window_spec
    (⟨0, 2, 3, 1, true, false, false⟩ : RtParams) EngineResult.failure 5
    (⟨[10, 20, 30], [1, 2, 3, 4], [], [], 0, 0, []⟩ : StreamState Int)
    (by decide) (by decide) (by decide)
  refine ⟨by decide, by decide, by decide, ?_, ?_, ?_⟩
  · rw [h1]
    decide
  · rw [h2]
    decide
  · rw [h3]
    decide

/-- C2: `addPCMAudio` appends the samples and then discards from the front
until the buffer holds at most `N_MAX = 2 × N_LEN` samples; it touches no
other session field and triggers no engine call. -/
theorem pushAudio_caps_buffer (p : RtParams) (s : StreamState α) (samples : List α) :
    (addPCMAudio p s samples).buffer.length ≤ 2 * p.nLen ∧
    (addPCMAudio p s samples).buffer
      = (s.buffer ++ samples).drop ((s.buffer ++ samples).length - 2 * p.nLen) ∧
    (addPCMAudio p s samples).engineCalls = s.engineCalls ∧
    (addPCMAudio p s samples).tail = s.tail ∧
    (addPCMAudio p s samples).promptTokens = s.promptTokens ∧
    (addPCMAudio p s samples).lastTranscription = s.lastTranscription ∧
    (addPCMAudio p s samples).lastProcessTime = s.lastProcessTime := by
  refine ⟨?_, ?_, rfl, rfl, rfl, rfl, rfl⟩
  · show (trimFront (p.nLen * 2) (s.buffer ++ samples)).length ≤ 2 * p.nLen
    rw [trimFront_length]
    omega
  · show trimFront (p.nLen * 2) (s.buffer ++ samples) = _
    rw [trimFront_eq_drop]
    congr 1
    omega

/-- C4: `processIfReady` runs an inference pass only when the buffer holds at
least `N_STEP` samples and at least `step_ms` elapsed since the previous
pass; when either condition fails it returns the empty string and leaves the
session — in particular the log of engine invocations — untouched, so of two
drains less than `step_ms` apart (the first ready) only the first can run an
inference. -/
theorem drain_time_gate (p : RtParams) (res₁ res₂ : EngineResult) (t₁ t₂ : Int)
    (s : StreamState α) :
    (∀ res now, (s.buffer.length < p.nStep ∨ now - s.lastProcessTime < p.stepMs) →
      processIfReady p res now s = ([], s)) ∧
    (p.nStep ≤ s.buffer.length → p.stepMs ≤ t₁ - s.lastProcessTime →
      t₂ - t₁ < p.stepMs →
      processIfReady p res₂ t₂ (processIfReady p res₁ t₁ s).2
        = ([], (processIfReady p res₁ t₁ s).2)) := by
  constructor
  · intro res now hcond
    apply drain_not_ready
    unfold shouldProcess
    by_cases hb : s.buffer.length < p.nStep
    · rw [if_pos hb]
    · rw [if_neg hb]
      rcases hcond with hcut | ht
      · exact absurd hcut hb
      · exact decide_eq_false (by omega)
  · intro h1 h2 h3
    have hready : shouldProcess p s t₁ = true :=
      (shouldProcess_eq_true_iff p s t₁).mpr ⟨h1, h2⟩
    obtain ⟨-, -, htime, -⟩ := drain_ready_fields p res₁ t₁ s hready
    apply drain_not_ready
    unfold shouldProcess
    by_cases hb : (processIfReady p res₁ t₁ s).2.buffer.length < p.nStep
    · rw [if_pos hb]
    · rw [if_neg hb, htime]
      exact decide_eq_false (by omega)

theorem drain_time_gate_witness :
    ((⟨10, 1, 1, 0, true, false, false⟩ : RtParams).nStep
        ≤ (⟨[7, 8], [], [], [], 0, 0, []⟩ : StreamState Int).buffer.length) ∧
    ((⟨10, 1, 1, 0, true, false, false⟩ : RtParams).stepMs
        ≤ 10 - (⟨[7, 8], [], [], [], 0, 0, []⟩ : StreamState Int).lastProcessTime) ∧
    ((15 : Int) - 10 < (⟨10, 1, 1, 0, true, false, false⟩ : RtParams).stepMs) ∧
    processIfReady (⟨10, 1, 1, 0, true, false, false⟩ : RtParams) EngineResult.failure 15
        (processIfReady (⟨10, 1, 1, 0, true, false, false⟩ : RtParams)
          EngineResult.failure 10 (⟨[7, 8], [], [], [], 0, 0, []⟩ : StreamState Int)).2
      = ([], (processIfReady (⟨10, 1, 1, 0, true, false, false⟩ : RtParams)
          EngineResult.failure 10 (⟨[7, 8], [], [], [], 0, 0, []⟩ : StreamState Int)).2) :=
  ⟨by decide, by decide, by decide,
    (drain_time_gate (⟨10, 1, 1, 0, true, false, false⟩ : RtParams)
      EngineResult.failure EngineResult.failure 10 15
      (⟨[7, 8], [], [], [], 0, 0, []⟩ : StreamState Int)).2
      (by decide) (by decide) (by decide)⟩

/-- C3: for every nonempty formatted transcript, the incremental extraction
cleans both the input and the stored last transcription (bracket spans
stripped, whitespace trimmed at both ends) and returns the trimmed suffix
past the cleaned last transcript when the cleaned current properly extends
it, the empty string when the two cleaned forms are equal, and the whole
cleaned current when they diverge. -/
theorem extract_incremental_spec (s : StreamState α) (full : Str) (hne : full ≠ []) :
    (extractNewText full s).1 =
      (if properPre (trim (removeTimestamps s.lastTranscription))
            (trim (removeTimestamps full)) then
          trim ((trim (removeTimestamps full)).drop
            (trim (removeTimestamps s.lastTranscription)).length)
        else if trim (removeTimestamps full)
            = trim (removeTimestamps s.lastTranscription) then []
        else trim (removeTimestamps full)) := by
  have hfe : ¬(full.isEmpty = true) := by simp [hne]
  unfold extractNewText
  rw [if_neg hfe]
  dsimp only
  rw [ite_isEmpty_self]
  set cc := trim (removeTimestamps full) with hcc
  set lc := trim (removeTimestamps s.lastTranscription) with hlc
  by_cases hp : properPre lc cc
  · obtain ⟨hlen, htake⟩ := (properPre_iff lc cc).mp hp
    rw [if_pos ⟨hlen, htake⟩, if_pos hp]
  · have hcond : ¬(lc.length < cc.length ∧ cc.take lc.length = lc) := fun hc =>
      hp ((properPre_iff lc cc).mpr hc)
    rw [if_neg hcond, if_neg hp]
    by_cases he : cc = lc
    · rw [if_neg (fun hn => hn he), if_pos he]
    · rw [if_pos he, if_neg he]

theorem extract_incremental_spec_witness :
    (("ab").data ≠ ([] : Str)) ∧
    (extractNewText (("ab").data)
        (⟨[], [], [], ("a").data, 0, 0, []⟩ : StreamState Int)).1 = ("b").data := by
  refine ⟨by decide, ?_⟩
  rw [extract_incremental_spec (⟨[], [], [], ("a").data, 0, 0, []⟩ : StreamState Int)
    (("ab").data) (by decide)]
  decide

/-- C8 counterexample: with prior emission `a` and current transcript `ab`,
the cleaned current properly extends the cleaned last, yet gluing the
returned delta `b` onto the cleaned last with a single space yields `a b`,
not the cleaned current `ab`. -/
theorem delta_space_concat_cex :
    properPre (trim (removeTimestamps (("a").data)))
        (trim (removeTimestamps (("ab").data))) ∧
    (extractNewText (("ab").data)
        (⟨[], [], [], ("a").data, 1, 0, []⟩ : StreamState Int)).1 = ("b").data ∧
    trim (removeTimestamps (("a").data)) ++ ' ' :: ("b").data
      ≠ trim (removeTimestamps (("ab").data)) := by
  refine ⟨by decide, by decide, by decide⟩

/-- C8 (amended): when the cleaned current transcript is the cleaned last
transcript followed by exactly one space and a nonempty delta with no leading
or trailing whitespace, the extraction returns that delta, and the cleaned
last concatenated with a single space and the returned delta equals the
cleaned current. -/
theorem delta_space_concat (s : StreamState α) (full d : Str) (hne : full ≠ [])
    (hdl : d.dropWhile isWsChar = d)
    (hdr : d.reverse.dropWhile isWsChar = d.reverse)
    (hsplit : trim (removeTimestamps full)
        = trim (removeTimestamps s.lastTranscription) ++ ' ' :: d) :
    (extractNewText full s).1 = d ∧
    trim (removeTimestamps s.lastTranscription) ++ ' ' :: (extractNewText full s).1
      = trim (removeTimestamps full) := by
  have hfe : ¬(full.isEmpty = true) := by simp [hne]
  have hdelta : (extractNewText full s).1 = d := by
    unfold extractNewText
    rw [if_neg hfe]
    dsimp only
    rw [ite_isEmpty_self, hsplit]
    have hlen : (trim (removeTimestamps s.lastTranscription)).length
        < (trim (removeTimestamps s.lastTranscription) ++ ' ' :: d).length := by
      simp
    have htake : (trim (removeTimestamps s.lastTranscription) ++ ' ' :: d).take
        (trim (removeTimestamps s.lastTranscription)).length
        = trim (removeTimestamps s.lastTranscription) :=
      List.take_left _ _
    rw [if_pos ⟨hlen, htake⟩, List.drop_left]
    show trim (' ' :: d) = d
    unfold trim trimLeft trimRight
    rw [List.dropWhile_cons]
    have hws : isWsChar ' ' = true := rfl
    rw [if_pos hws, hdl, hdr, List.reverse_reverse]
  exact ⟨hdelta, by rw [hdelta, ← hsplit]⟩

theorem delta_space_concat_witness :
    (extractNewText (("a b").data)
        (⟨[], [], [], ("a").data, 0, 0, []⟩ : StreamState Int)).1 = ("b").data ∧
    trim (removeTimestamps
        (⟨[], [], [], ("a").data, 0, 0, []⟩ : StreamState Int).lastTranscription)
      ++ ' ' :: (extractNewText (("a b").data)
        (⟨[], [], [], ("a").data, 0, 0, []⟩ : StreamState Int)).1
      = trim (removeTimestamps (("a b").data)) :=
  delta_space_concat (⟨[], [], [], ("a").data, 0, 0, []⟩ : StreamState Int)
    (("a b").data) (("b").data) (by decide) (by decide) (by decide) (by decide)

/-- C5 counterexample: a parsed control message with the unrecognized type
`bogus` — and likewise one that parses but has no `type` field — produces no
response at all, in particular no `error` frame, contradicting the claim
that such frames are answered with an `error` response. -/
theorem textFrame_error_cex :
    handleTextFrame (⟨0, 1, 1, 0, true, false, false⟩ : RtParams) EngineResult.failure 0
        (initState 0 : StreamState Int) (TextMsg.typed (("bogus").data))
      = ([], initState 0, false) ∧
    handleTextFrame (⟨0, 1, 1, 0, true, false, false⟩ : RtParams) EngineResult.failure 0
        (initState 0 : StreamState Int) TextMsg.noType
      = ([], initState 0, false) :=
  ⟨by decide, by decide⟩

/-- C5 (amended): the TEXT branch of the message handler never closes the
connection; a frame whose JSON parse (or whose `type` extraction) threw is
answered with exactly one `error` response carrying the diagnostic prefixed
`Invalid JSON: `; a parsed frame lacking `type`, or carrying an unrecognized
`type` string, is silently ignored — no response is sent and the session
state is untouched. -/
theorem textFrame_error_spec (p : RtParams) (res : EngineResult) (now : Int)
    (s : StreamState α) (t what : Str)
    (hb : t ≠ ("config").data) (hf : t ≠ ("flush").data) (hr : t ≠ ("reset").data) :
    (∀ m : TextMsg, (handleTextFrame p res now s m).2.2 = false) ∧
    handleTextFrame p res now s (TextMsg.parseFail what)
      = ([Response.errorMsg (("Invalid JSON: ").data ++ what)], s, false) ∧
    handleTextFrame p res now s (TextMsg.typeFail what)
      = ([Response.errorMsg (("Invalid JSON: ").data ++ what)], s, false) ∧
    handleTextFrame p res now s TextMsg.noType = ([], s, false) ∧
    handleTextFrame p res now s (TextMsg.typed t) = ([], s, false) := by
  refine ⟨?_, rfl, rfl, rfl, ?_⟩
  · intro m
    rcases m with w | w | _ | t2
    · rfl
    · rfl
    · rfl
    · simp only [handleTextFrame]
      split
      · rfl
      · split
        · rfl
        · split <;> rfl
  · simp only [handleTextFrame]
    rw [if_neg hb, if_neg hf, if_neg hr]

theorem textFrame_error_spec_witness :
    (("bogus").data ≠ ("config").data) ∧
    (("bogus").data ≠ ("flush").data) ∧
    (("bogus").data ≠ ("reset").data) ∧
    handleTextFrame (⟨0, 1, 1, 0, true, false, false⟩ : RtParams) EngineResult.failure 0
        (initState 5 : StreamState Int) (TextMsg.typed (("bogus").data))
      = ([], initState 5, false) :=
  ⟨by decide, by decide, by decide,
    (textFrame_error_spec (⟨0, 1, 1, 0, true, false, false⟩ : RtParams)
      EngineResult.failure 0 (initState 5 : StreamState Int) (("bogus").data) []
      (by decide) (by decide) (by decide)).2.2.2.2⟩

theorem runInference_failure_promptTokens (p : RtParams) (aud : List α)
    (s : StreamState α) :
    (runInference p EngineResult.failure aud s).2.promptTokens = s.promptTokens := by
  by_cases he : aud.isEmpty <;> simp [runInference, he]

theorem runInference_noSegs_promptTokens (p : RtParams) (aud : List α)
    (s : StreamState α) :
    (runInference p (EngineResult.success []) aud s).2.promptTokens = s.promptTokens := by
  by_cases he : aud.isEmpty <;> simp [runInference, he]

theorem runInference_noContext_promptTokens (p : RtParams) (res : EngineResult)
    (aud : List α) (s : StreamState α) (hp : p.noContext = true) :
    (runInference p res aud s).2.promptTokens = s.promptTokens := by
  by_cases he : aud.isEmpty
  · simp [runInference, he]
  · rcases res with _ | segs <;>
      simp only [runInference, he, if_false, Bool.false_eq_true]
    rw [if_neg (by simp [hp])]

theorem runInference_tokens_replace (p : RtParams) (segs : List Segment)
    (aud : List α) (s : StreamState α) (hp : p.noContext = false)
    (hsegs : segs ≠ []) (ha : aud ≠ []) :
    (runInference p (EngineResult.success segs) aud s).2.promptTokens
      = (segs.map Segment.tokens).flatten := by
  have he : aud.isEmpty = false := by simp [ha]
  simp only [runInference, he, Bool.false_eq_true, if_false]
  rw [if_pos ⟨hp, hsegs⟩]

theorem drain_noContext_promptTokens (p : RtParams) (res : EngineResult) (now : Int)
    (s : StreamState α) (hp : p.noContext = true) :
    (processIfReady p res now s).2.promptTokens = s.promptTokens := by
  by_cases hr : shouldProcess p s now = false
  · rw [drain_not_ready p res now s hr]
  · unfold processIfReady
    rw [if_neg hr]
    dsimp only
    rw [extractNewText_snd_promptTokens, runInference_noContext_promptTokens _ _ _ _ hp]

theorem flush_noContext_promptTokens (p : RtParams) (res : EngineResult) (now : Int)
    (s : StreamState α) (hp : p.noContext = true) :
    (flush p res now s).2.promptTokens = s.promptTokens := by
  by_cases hb : s.buffer.isEmpty
  · unfold flush
    rw [if_pos hb]
  · unfold flush
    rw [if_neg hb]
    dsimp only
    rw [extractNewText_snd_promptTokens, runInference_noContext_promptTokens _ _ _ _ hp]

/-- With context disabled no operation ever writes `prompt_tokens_`. -/
theorem reachable_noContext_promptTokens (p : RtParams) (hp : p.noContext = true)
    {s : StreamState α} (h : Reachable p s) : s.promptTokens = [] := by
  induction h with
  | init t0 => rfl
  | @push s chunk h ih => exact ih
  | @drain s res now h ih => rw [drain_noContext_promptTokens p res now s hp]; exact ih
  | @flushStep s res now h ih => rw [flush_noContext_promptTokens p res now s hp]; exact ih
  | @resetStep s now h ih => rfl

/-- C6 (amended): after an inference pass, `prompt_tokens` is replaced by
the concatenated token ids of the returned segments (in order) exactly when
context is enabled, the engine succeeded, and at least one segment came back
from a nonempty window; in every other case — context disabled, engine
failure, or zero segments — it is left unchanged rather than cleared.  With
context disabled it is therefore empty in every reachable session state. -/
theorem promptTokens_spec (p : RtParams) (res : EngineResult) (segs : List Segment)
    (aud : List α) (s : StreamState α) :
    (p.noContext = false → segs ≠ [] → aud ≠ [] →
      (runInference p (EngineResult.success segs) aud s).2.promptTokens
        = (segs.map Segment.tokens).flatten) ∧
    ((runInference p EngineResult.failure aud s).2.promptTokens = s.promptTokens) ∧
    ((runInference p (EngineResult.success []) aud s).2.promptTokens = s.promptTokens) ∧
    (p.noContext = true →
      (runInference p res aud s).2.promptTokens = s.promptTokens) ∧
    (p.noContext = true → ∀ s2 : StreamState α, Reachable p s2 → s2.promptTokens = []) :=
  ⟨fun hp hsegs ha => runInference_tokens_replace p segs aud s hp hsegs ha,
    runInference_failure_promptTokens p aud s,
    runInference_noSegs_promptTokens p aud s,
    fun hp => runInference_noContext_promptTokens p res aud s hp,
    fun hp _ h => reachable_noContext_promptTokens p hp h⟩

theorem promptTokens_spec_witness :
    ((⟨0, 1, 1, 0, false, true, false⟩ : RtParams).noContext = false) ∧
    ((runInference (⟨0, 1, 1, 0, false, true, false⟩ : RtParams)
        (EngineResult.success [⟨("hi").data, 0, 0, false, [5, 6]⟩]) ([0] : List Int)
        (initState 0 : StreamState Int)).2.promptTokens = [5, 6]) ∧
    ((initState 3 : StreamState Int).promptTokens = []) := by
  refine ⟨by decide, ?_, ?_⟩
  · have h := (promptTokens_spec (⟨0, 1, 1, 0, false, true, false⟩ : RtParams)
      EngineResult.failure [⟨("hi").data, 0, 0, false, [5, 6]⟩] ([0] : List Int)
      (initState 0 : StreamState Int)).1 (by decide) (by decide) (by decide)
    rw [h]
    decide
  · exact (promptTokens_spec (⟨0, 1, 1, 0, true, true, false⟩ : RtParams)
      EngineResult.failure [] ([] : List Int) (initState 0 : StreamState Int)).2.2.2.2
      (by decide) (initState 3) (Reachable.init 3)

/-- C6 counterexample: with context enabled, a first pass returns one
segment with token ids `[5]`; a second successful pass returns zero
segments.  The most recent pass produced no segments, yet `prompt_tokens`
still holds `[5]` — the code keeps, rather than empties, the tokens. -/
theorem promptTokens_cex :
    (runInference (⟨0, 1, 1, 0, false, true, false⟩ : RtParams)
        (EngineResult.success []) ([0] : List Int)
        (runInference (⟨0, 1, 1, 0, false, true, false⟩ : RtParams)
          (EngineResult.success [⟨[], 0, 0, false, [5]⟩]) ([0] : List Int)
          (initState 0 : StreamState Int)).2).2.promptTokens = [5] ∧
    ([5] : List Int) ≠ [] :=
  ⟨by decide, by decide⟩

/-- C7: `flush` on an empty buffer returns the empty string and performs no
work at all — identical state, no engine call; on a nonempty buffer it
submits the window built by the same overlap formula as `processIfReady`
with `n_new = len(buffer)`, clears buffer and tail, stamps the clock; and
the connection handler answers a `flush` control message with a
`flush_complete` frame carrying exactly the flushed text and state. -/
theorem flush_spec (p : RtParams) (res : EngineResult) (now : Int) (s : StreamState α) :
    (s.buffer = [] → flush p res now s = ([], s)) ∧
    (s.buffer ≠ [] →
      (flush p res now s).2.buffer = [] ∧
      (flush p res now s).2.tail = [] ∧
      (flush p res now s).2.lastProcessTime = now ∧
      (flush p res now s).2.engineCalls
        = s.engineCalls
          ++ [assembleWindow p.nKeep p.nLen s.buffer.length s.tail s.buffer]) ∧
    (handleTextFrame p res now s (TextMsg.typed (("flush").data))
      = ([Response.flushComplete (flush p res now s).1], (flush p res now s).2, false)) := by
  refine ⟨fun h => flush_empty_eq p res now s h, fun h => flush_fields p res now s h, ?_⟩
  simp only [handleTextFrame]
  rw [if_neg (by decide)]
  simp

theorem flush_spec_witness :
    ((initState 0 : StreamState Int).buffer = []) ∧
    (flush (⟨0, 1, 1, 1, true, false, false⟩ : RtParams) EngineResult.failure 2
        (initState 0 : StreamState Int) = ([], initState 0)) ∧
    ((⟨[7], [8], [], [], 0, 0, []⟩ : StreamState Int).buffer ≠ []) ∧
    ((flush (⟨0, 1, 1, 1, true, false, false⟩ : RtParams) EngineResult.failure 2
        (⟨[7], [8], [], [], 0, 0, []⟩ : StreamState Int)).2.buffer = [] ∧
      (flush (⟨0, 1, 1, 1, true, false, false⟩ : RtParams) EngineResult.failure 2
        (⟨[7], [8], [], [], 0, 0, []⟩ : StreamState Int)).2.tail = [] ∧
      (flush (⟨0, 1, 1, 1, true, false, false⟩ : RtParams) EngineResult.failure 2
        (⟨[7], [8], [], [], 0, 0, []⟩ : StreamState Int)).2.engineCalls = [[8, 7]]) := by
  refine ⟨by decide, ?_, by decide, ?_⟩
  · exact (flush_spec (⟨0, 1, 1, 1, true, false, false⟩ : RtParams) EngineResult.failure 2
      (initState 0 : StreamState Int)).1 rfl
  · obtain ⟨h1, h2, -, h4⟩ := (flush_spec (⟨0, 1, 1, 1, true, false, false⟩ : RtParams)
      EngineResult.failure 2 (⟨[7], [8], [], [], 0, 0, []⟩ : StreamState Int)).2.1
      (by decide)
    refine ⟨h1, h2, ?_⟩
    rw [h4]
    decide

theorem assembleWindow_length_le (k l n cap : Nat) (tl buf : List α) (hn : n ≤ cap) :
    (assembleWindow k l n tl buf).length ≤ max (k + l) cap := by
  unfold assembleWindow
  rw [List.length_append, List.length_drop, List.length_take]
  omega

/-- C9: in every session state reachable from a fresh context, the buffer
never exceeds `N_MAX = 2 × N_LEN` samples, and every audio window ever
submitted to the engine — by drain or by flush — has at most
`max(N_KEEP + N_LEN, max(N_STEP, 2 × N_LEN))` samples. -/
theorem window_length_bound (p : RtParams) (s : StreamState α) (h : Reachable p s) :
    s.buffer.length ≤ 2 * p.nLen ∧
    ∀ w ∈ s.engineCalls,
      w.length ≤ max (p.nKeep + p.nLen) (max p.nStep (2 * p.nLen)) := by
  induction h with
  | init t0 => exact ⟨by simp [initState], by simp [initState]⟩
  | @push s chunk h ih =>
    refine ⟨?_, ih.2⟩
    show (trimFront (p.nLen * 2) (s.buffer ++ chunk)).length ≤ 2 * p.nLen
    rw [trimFront_length]
    omega
  | @drain s res now h ih =>
    by_cases hr : shouldProcess p s now = false
    · rw [drain_not_ready p res now s hr]
      exact ih
    · have hr2 : shouldProcess p s now = true := by
        cases hsp : shouldProcess p s now
        · exact absurd hsp hr
        · rfl
      obtain ⟨hb, -, -, hec⟩ := drain_ready_fields p res now s hr2
      constructor
      · rw [hb, List.length_drop]
        have := ih.1
        omega
      · rw [hec]
        intro w hw
        rcases List.mem_append.mp hw with hin | hin
        · exact ih.2 w hin
        · split at hin
          · simp at hin
          · rw [List.mem_singleton] at hin
            subst hin
            have hbound := assembleWindow_length_le p.nKeep p.nLen
              (min s.buffer.length p.nStep) p.nStep s.tail s.buffer (by omega)
            omega
  | @flushStep s res now h ih =>
    by_cases hb0 : s.buffer = []
    · rw [flush_empty_eq p res now s hb0]
      exact ih
    · obtain ⟨hb, -, -, hec⟩ := flush_fields p res now s hb0
      constructor
      · rw [hb]
        simp
      · rw [hec]
        intro w hw
        rcases List.mem_append.mp hw with hin | hin
        · exact ih.2 w hin
        · rw [List.mem_singleton] at hin
          subst hin
          have hbound := assembleWindow_length_le p.nKeep p.nLen
            s.buffer.length (2 * p.nLen) s.tail s.buffer ih.1
          omega
  | @resetStep s now h ih => exact ⟨by simp [resetState], ih.2⟩

theorem window_length_bound_witness :
    ((processIfReady (⟨0, 2, 3, 1, true, false, false⟩ : RtParams) EngineResult.failure 1
        (addPCMAudio (⟨0, 2, 3, 1, true, false, false⟩ : RtParams)
          (initState 0 : StreamState Int) [1, 2, 3])).2.buffer.length
      ≤ 2 * (⟨0, 2, 3, 1, true, false, false⟩ : RtParams).nLen) ∧
    (∀ w ∈ (processIfReady (⟨0, 2, 3, 1, true, false, false⟩ : RtParams)
        EngineResult.failure 1
        (addPCMAudio (⟨0, 2, 3, 1, true, false, false⟩ : RtParams)
          (initState 0 : StreamState Int) [1, 2, 3])).2.engineCalls,
      w.length ≤ max ((⟨0, 2, 3, 1, true, false, false⟩ : RtParams).nKeep
          + (⟨0, 2, 3, 1, true, false, false⟩ : RtParams).nLen)
        (max (⟨0, 2, 3, 1, true, false, false⟩ : RtParams).nStep
          (2 * (⟨0, 2, 3, 1, true, false, false⟩ : RtParams).nLen))) :=
  window_length_bound (⟨0, 2, 3, 1, true, false, false⟩ : RtParams) _
    (Reachable.drain EngineResult.failure 1
      (Reachable.push [1, 2, 3] (Reachable.init 0)))

theorem runInference_fst_failure (p : RtParams) (aud : List α) (s : StreamState α) :
    (runInference p EngineResult.failure aud s).1 = [] := by
  by_cases he : aud.isEmpty <;> simp [runInference, he]

theorem runInference_fst_noSegs (p : RtParams) (aud : List α) (s : StreamState α) :
    (runInference p (EngineResult.success []) aud s).1 = [] := by
  by_cases he : aud.isEmpty <;> simp [runInference, he, formatTranscript]

/-- C10 (amended): when the engine call fails, or succeeds with zero
segments, both a ready `processIfReady` and a nonempty-buffer `flush` return
the empty string and leave `last_transcription_` and `prompt_tokens_`
unchanged, even though `buffer` and `tail` were already advanced before the
call — so the next successful pass diffs against the last successfully
emitted transcript; and whatever the engine result, an empty formatted
transcript leaves `last_transcription_` untouched with an empty delta. -/
theorem engine_failure_spec (p : RtParams) (res : EngineResult) (now : Int)
    (s : StreamState α)
    (hres : res = EngineResult.failure ∨ res = EngineResult.success []) :
    (p.nStep ≤ s.buffer.length → p.stepMs ≤ now - s.lastProcessTime →
      (processIfReady p res now s).1 = [] ∧
      (processIfReady p res now s).2.lastTranscription = s.lastTranscription ∧
      (processIfReady p res now s).2.promptTokens = s.promptTokens ∧
      (processIfReady p res now s).2.buffer
        = s.buffer.drop (min s.buffer.length p.nStep) ∧
      (processIfReady p res now s).2.tail
        = assembleWindow p.nKeep p.nLen (min s.buffer.length p.nStep)
            s.tail s.buffer) ∧
    (s.buffer ≠ [] →
      (flush p res now s).1 = [] ∧
      (flush p res now s).2.lastTranscription = s.lastTranscription ∧
      (flush p res now s).2.promptTokens = s.promptTokens ∧
      (flush p res now s).2.buffer = [] ∧
      (flush p res now s).2.tail = []) ∧
    extractNewText [] s = ([], s) := by
  have hfst : ∀ aud : List α, ∀ s3 : StreamState α, (runInference p res aud s3).1 = [] := by
    intro aud s3
    rcases hres with rfl | rfl
    · exact runInference_fst_failure p aud s3
    · exact runInference_fst_noSegs p aud s3
  have htok : ∀ aud : List α, ∀ s3 : StreamState α,
      (runInference p res aud s3).2.promptTokens = s3.promptTokens := by
    intro aud s3
    rcases hres with rfl | rfl
    · exact runInference_failure_promptTokens p aud s3
    · exact runInference_noSegs_promptTokens p aud s3
  refine ⟨?_, ?_, rfl⟩
  · intro h1 h2
    have hready : shouldProcess p s now = true :=
      (shouldProcess_eq_true_iff p s now).mpr ⟨h1, h2⟩
    have hc : ¬(shouldProcess p s now = false) := by simp [hready]
    unfold processIfReady
    rw [if_neg hc]
    dsimp only
    rw [hfst, extractNewText_empty]
    exact ⟨rfl, by rw [runInference_snd_lastTranscription], by rw [htok],
      by rw [runInference_snd_buffer], by rw [runInference_snd_tail]⟩
  · intro hne
    have hb : ¬(s.buffer.isEmpty = true) := by simp [hne]
    unfold flush
    rw [if_neg hb]
    dsimp only
    rw [hfst, extractNewText_empty]
    exact ⟨rfl, by rw [runInference_snd_lastTranscription], by rw [htok],
      by rw [runInference_snd_buffer], by rw [runInference_snd_tail]⟩

theorem engine_failure_spec_witness :
    ((⟨0, 1, 2, 0, true, true, false⟩ : RtParams).nStep
        ≤ (⟨[9], [], [], ("x").data, 0, 0, []⟩ : StreamState Int).buffer.length) ∧
    ((⟨0, 1, 2, 0, true, true, false⟩ : RtParams).stepMs
        ≤ 1 - (⟨[9], [], [], ("x").data, 0, 0, []⟩ : StreamState Int).lastProcessTime) ∧
    ((processIfReady (⟨0, 1, 2, 0, true, true, false⟩ : RtParams) EngineResult.failure 1
        (⟨[9], [], [], ("x").data, 0, 0, []⟩ : StreamState Int)).1 = []) ∧
    ((processIfReady (⟨0, 1, 2, 0, true, true, false⟩ : RtParams) EngineResult.failure 1
        (⟨[9], [], [], ("x").data, 0, 0, []⟩ : StreamState Int)).2.lastTranscription
      = ("x").data) := by
  have h := (engine_failure_spec (⟨0, 1, 2, 0, true, true, false⟩ : RtParams)
    EngineResult.failure 1 (⟨[9], [], [], ("x").data, 0, 0, []⟩ : StreamState Int)
    (Or.inl rfl)).1 (by decide) (by decide)
  exact ⟨by decide, by decide, h.1, h.2.1⟩

/-- C10 counterexample: with context enabled and timestamps disabled, a
ready drain whose engine pass returns one segment with empty text but token
ids `[5]` yields an empty formatted transcript — the call returns the empty
string and leaves `last_transcription_` alone — yet `prompt_tokens` is
replaced by `[5]` rather than left unchanged. -/
theorem engine_failure_cex :
    formatTranscript (⟨0, 1, 1, 0, false, true, false⟩ : RtParams)
        [⟨[], 0, 0, false, [5]⟩] = [] ∧
    (processIfReady (⟨0, 1, 1, 0, false, true, false⟩ : RtParams)
        (EngineResult.success [⟨[], 0, 0, false, [5]⟩]) 1
        (⟨[9], [], [], [], 0, 0, []⟩ : StreamState Int)).1 = [] ∧
    (processIfReady (⟨0, 1, 1, 0, false, true, false⟩ : RtParams)
        (EngineResult.success [⟨[], 0, 0, false, [5]⟩]) 1
        (⟨[9], [], [], [], 0, 0, []⟩ : StreamState Int)).2.promptTokens = [5] ∧
    (⟨[9], [], [], [], 0, 0, []⟩ : StreamState Int).promptTokens = [] :=
  ⟨by decide, by decide, by decide, by decide⟩

end WhisperRT
